import Mathlib

/-!
# Shallow embedding of the videoConverter server core

This file embeds, in Lean 4, the parts of the `videoConverter` repository
that its specification talks about:

* `src/server/src/services/video.service.ts` — resolution validation,
  enqueueing, status lookup and removal over three resolution-partitioned
  queues (the "Queue Router" and "Status Service");
* `src/server/src/jobs/video.processor.ts` — the ffmpeg wrapper
  (`convertResolution`) and its progress-stream parsing;
* `src/server/src/workers/video.worker.ts` together with
  `src/server/src/services/storage.service.ts` — the worker pipeline and its
  temp-file cleanup guarantee;
* the websocket event relay (`initQueueEvents`) — progress throttling and
  per-owner delivery.

JavaScript objects are modelled as association lists of `(String × JVal)`
pairs where a later binding wins (object-literal / spread semantics);
the Redis-backed broker is modelled as an explicit state value; exceptions
are modelled with `Except`; broker interactions are recorded in an explicit
effect trace so that "no broker side effect" is a provable statement.
-/

namespace VideoConverter

/-- A primitive JavaScript value: string, number, boolean or
`null`/`undefined`. -/
inductive JPrim where
  | str : String → JPrim
  | num : Int → JPrim
  | bool : Bool → JPrim
  | null : JPrim
  deriving Repr, DecidableEq

/-- A JavaScript runtime value, as far as the embedded code inspects one:
a primitive, or a plain object of primitives (an association list; a later
binding shadows an earlier one, which is the semantics of object literals
extended by spread).  One object layer is all the embedded code ever looks
into. -/
inductive JVal where
  | prim : JPrim → JVal
  | obj : List (String × JPrim) → JVal
  deriving Repr, DecidableEq

/-- Shorthand: a string value. -/
def jstr (s : String) : JVal := .prim (.str s)

/-- Shorthand: a number value. -/
def jnum (n : Int) : JVal := .prim (.num n)

/-- Shorthand: the `null` value. -/
def jnull : JVal := .prim .null

/-- Property lookup on a modelled object: the LAST binding for a key wins,
mirroring `{a: 1, ...m}` where a key of `m` overwrites `a`. -/
def objGet (fields : List (String × JVal)) (k : String) : Option JVal :=
  fields.reverse.lookup k

namespace VideoService

/-! ## `src/server/src/services/video.service.ts` -/

/-- `export const ALLOWED_RESOLUTIONS = [360, 480, 720] as const;` -/
def ALLOWED_RESOLUTIONS : List Int := [360, 480, 720]

/-- Per-resolution job options (`RES_JOB_OPTS` in the source). -/
structure QueueJobOpts where
  attempts : Nat
  timeoutMs : Nat
  backoffDelayMs : Nat
  deriving Repr, DecidableEq

/-- `RES_JOB_OPTS`: 360 → {3, 10 min, 5 s}, 480 → {3, 20 min, 5 s},
720 → {4, 30 min, 10 s}.  Total function on `Int`; only meaningful on
members of `ALLOWED_RESOLUTIONS`, exactly like the source record. -/
def RES_JOB_OPTS (r : Int) : QueueJobOpts :=
  if r = 360 then ⟨3, 10 * 60 * 1000, 5000⟩
  else if r = 480 then ⟨3, 20 * 60 * 1000, 5000⟩
  else ⟨4, 30 * 60 * 1000, 10000⟩

/-- The fixed resolution → queue-name mapping (`RES_TO_QUEUE` composed with
the names given to `makeQueuePair` in `bullmq.ts`: `video_360p`,
`video_480p`, `video_720p`). -/
def queueNameOf (r : Int) : String :=
  if r = 360 then "video_360p"
  else if r = 480 then "video_480p"
  else "video_720p"

/-- A job as stored by the broker: id, display name, payload, lifecycle
state and the fields the status helpers read back
(`job.progress`, `job.returnvalue`, `job.failedReason`). -/
structure StoredJob where
  id : String
  jobName : String
  data : List (String × JVal)
  state : String
  progress : JVal
  returnvalue : JVal
  failedReason : String
  deriving Repr, DecidableEq

/-- The broker (Redis) state visible to the service layer: the contents of
the three resolution queues, tagged by resolution. -/
structure BrokerState where
  jobs : List (Int × StoredJob)
  deriving Repr, DecidableEq

/-- `queue.getJob(jobId)` on the queue of resolution `r`. -/
def getJob (st : BrokerState) (r : Int) (jobId : String) : Option StoredJob :=
  (st.jobs.find? fun p => p.1 = r && p.2.id = jobId).map (·.2)

/-- A broker interaction, recorded so "no queue is read or written" is a
statement about an empty trace. -/
inductive QueueOp where
  | add (queueName : String) (jobId : String)
  | getJobOp (queueName : String) (jobId : String)
  | removeJob (queueName : String) (jobId : String)
  deriving Repr, DecidableEq

/-- `validateResolution`: returns the resolution when it is in
`ALLOWED_RESOLUTIONS`, otherwise throws (`Error("Unsupported resolution …")`). -/
def validateResolution (r : Int) : Except String Int :=
  if ALLOWED_RESOLUTIONS.contains r then .ok r
  else .error "Unsupported resolution"

/-- `buildJobName(res)` = `` `scale:${res}` ``. -/
def buildJobName (r : Int) : String := "scale:" ++ toString r

/-- Arguments of `enqueueVideoTranscode` (`EnqueueVideoArgs`);
`jobMeta` defaults to `{}` in the source, here an explicit list. -/
structure EnqueueVideoArgs where
  srcUrl : String
  userId : String
  resolution : Int
  jobMeta : List (String × JVal)
  deriving Repr, DecidableEq

/-- Result of `enqueueVideoTranscode` (`EnqueueVideoResult`). -/
structure EnqueueVideoResult where
  jobId : String
  resolution : Int
  queueName : String
  deriving Repr, DecidableEq

/-- `enqueueVideoTranscode`: validate the resolution, then
`queue.add(buildJobName(res), {srcUrl, target, userId, requestedAt, ...jobMeta}, opts)`.
`now` stands for `Date.now()` and `newJobId` for the broker-assigned job id.
Returns the result (or the thrown validation error), the new broker state,
and the trace of broker interactions. -/
def enqueueVideoTranscode (now : Int) (newJobId : String)
    (args : EnqueueVideoArgs) (st : BrokerState) :
    Except String EnqueueVideoResult × BrokerState × List QueueOp :=
  match validateResolution args.resolution with
  | .error e => (.error e, st, [])
  | .ok cleanRes =>
    let qn := queueNameOf cleanRes
    let data : List (String × JVal) :=
      [("srcUrl", jstr args.srcUrl), ("target", jnum cleanRes),
       ("userId", jstr args.userId), ("requestedAt", jnum now)]
      ++ args.jobMeta
    let job : StoredJob :=
      { id := newJobId, jobName := buildJobName cleanRes, data := data,
        state := "waiting", progress := jnum 0, returnvalue := jnull,
        failedReason := "" }
    (.ok ⟨newJobId, cleanRes, qn⟩,
     ⟨(cleanRes, job) :: st.jobs⟩,
     [QueueOp.add qn newJobId])

/-- `VideoJobStatus` as assembled by `getVideoJobStatusFromQueue`
(`result` and `error` are `undefined` unless the state warrants them). -/
structure VideoJobStatus where
  jobId : String
  resolution : Option Int
  queueName : String
  state : String
  progress : JVal
  result : Option JVal
  error : Option String
  data : List (String × JVal)
  deriving Repr, DecidableEq

/-- `getVideoJobStatusFromQueue(queue, jobId, resHint?)`: read the job from
the queue of resolution `r`; `null` when absent; otherwise derive the resolution
from the hint or from `job.data.target`, and surface result/error only in
the matching terminal state. -/
def getVideoJobStatusFromQueue (st : BrokerState) (r : Int) (jobId : String)
    (resHint : Option Int) : Option VideoJobStatus × List QueueOp :=
  match getJob st r jobId with
  | none => (none, [QueueOp.getJobOp (queueNameOf r) jobId])
  | some job =>
    let resolution : Option Int :=
      match resHint with
      | some h => some h
      | none =>
        match objGet job.data "target" with
        | some (.prim (.num t)) =>
          if ALLOWED_RESOLUTIONS.contains t then some t else none
        | _ => none
    (some { jobId := jobId, resolution := resolution,
            queueName := queueNameOf r, state := job.state,
            progress := job.progress,
            result := if job.state = "completed" then some job.returnvalue else none,
            error := if job.state = "failed" then some job.failedReason else none,
            data := job.data },
     [QueueOp.getJobOp (queueNameOf r) jobId])

/-- `getVideoJobStatusByRes(resolution, jobId)`: validation failure is
caught and turned into `null` (`try … catch { return null; }`); on success
the dedicated queue is probed with the clean resolution as hint. -/
def getVideoJobStatusByRes (st : BrokerState) (resolution : Int)
    (jobId : String) : Except String (Option VideoJobStatus) × List QueueOp :=
  match validateResolution resolution with
  | .error _ => (.ok none, [])
  | .ok clean =>
    let (s, ops) := getVideoJobStatusFromQueue st clean jobId (some clean)
    (.ok s, ops)

/-- The loop body of `getVideoJobStatusAnyQueue`: probe the queues in order,
return the first hit. -/
def anyQueueLoop (st : BrokerState) (jobId : String) :
    List Int → Option VideoJobStatus × List QueueOp
  | [] => (none, [])
  | r :: rest =>
    let (s, ops) := getVideoJobStatusFromQueue st r jobId (some r)
    match s with
    | some v => (some v, ops)
    | none =>
      let (s2, ops2) := anyQueueLoop st jobId rest
      (s2, ops ++ ops2)

/-- `getVideoJobStatusAnyQueue(jobId)`: `Object.entries(RES_TO_QUEUE)`
iterates the integer-like keys in ascending order, so the probe order is
360, 480, 720. -/
def getVideoJobStatusAnyQueue (st : BrokerState) (jobId : String) :
    Except String (Option VideoJobStatus) × List QueueOp :=
  let (s, ops) := anyQueueLoop st jobId ALLOWED_RESOLUTIONS
  (.ok s, ops)

/-- `removeJob`: the broker state after `job.remove()` on resolution `r`. -/
def removeJobFromQueue (st : BrokerState) (r : Int) (jobId : String) : BrokerState :=
  ⟨st.jobs.filter fun p => !(p.1 = r && p.2.id = jobId)⟩

/-- `removeVideoJobByRes(resolution, jobId)`: validation failure is caught
and turned into `false`; otherwise the job is fetched and, when present,
removed. -/
def removeVideoJobByRes (st : BrokerState) (resolution : Int)
    (jobId : String) : Except String Bool × BrokerState × List QueueOp :=
  match validateResolution resolution with
  | .error _ => (.ok false, st, [])
  | .ok clean =>
    match getJob st clean jobId with
    | none => (.ok false, st, [QueueOp.getJobOp (queueNameOf clean) jobId])
    | some _ =>
      (.ok true, removeJobFromQueue st clean jobId,
       [QueueOp.getJobOp (queueNameOf clean) jobId,
        QueueOp.removeJob (queueNameOf clean) jobId])

/-- The empty broker. -/
def emptyBroker : BrokerState := ⟨[]⟩

end VideoService

namespace QueueEventsRelay

/-! ## The websocket event relay (`initQueueEvents`)

The relay subscribes to `completed` / `progress` / `failed` lifecycle events
of every queue, resolves the owning user by re-reading the job from the
queue, throttles progress events per job, and emits to the private
socket room of the owner.  Each broker event is modelled as a `QEvent` carrying the
wall-clock arrival time (`Date.now()` at handler entry) and the answer the
broker gives to the `Job.fromId` lookup of the handler at that moment
(`jobUserId`: the `data.userId` of the job, or `none` when the job has
disappeared). -/

/-- `const PROGRESS_THROTTLE_MS = 250;` -/
def PROGRESS_THROTTLE_MS : Int := 250

/-- `verifyJwt(token)`: in development the literal `dev-token` maps to
`demo-user`; any token starting with `user-` is its own subject; all other
tokens are rejected. -/
def verifyJwt (nodeEnv : String) (token : String) : Except String String :=
  if nodeEnv = "development" ∧ token = "dev-token" then .ok "demo-user"
  else if token.startsWith "user-" then .ok token
  else .error "bad token"

/-- The connection handler: `if (userId) socket.join(userId)` — the socket
joins the single room named by its authenticated user id (JS truthiness:
a non-empty string). -/
def connectionChannels (userId : String) : List String :=
  if userId = "" then [] else [userId]

/-- `getJobOwner`: `job?.data?.userId || null`.  The argument is the
`userId` field of the job as found in the queue right now (`none` when the
job is gone); `||` turns an empty string into `null` as well. -/
def getJobOwner (jobUserId : Option String) : Option String :=
  match jobUserId with
  | none => none
  | some u => if u = "" then none else some u

/-- A lifecycle event as seen by one `QueueEvents` handler invocation. -/
inductive QEvent where
  | progress (queueName jobId : String) (time : Int) (jobUserId : Option String)
      (data : JVal)
  | completed (queueName jobId : String) (time : Int) (jobUserId : Option String)
      (returnvalue : JVal)
  | failed (queueName jobId : String) (time : Int) (jobUserId : Option String)
      (failedReason : String)
  deriving Repr, DecidableEq

/-- The job id an event is about. -/
def QEvent.jobId : QEvent → String
  | .progress _ j _ _ _ => j
  | .completed _ j _ _ _ => j
  | .failed _ j _ _ _ => j

/-- The answer of the broker to the owner lookup of the handler for this event. -/
def QEvent.jobUserId : QEvent → Option String
  | .progress _ _ _ u _ => u
  | .completed _ _ _ u _ => u
  | .failed _ _ _ u _ => u

/-- The owner resolved for this event (`getJobOwner`). -/
def QEvent.owner (e : QEvent) : Option String := getJobOwner e.jobUserId

/-- The process-local `lastProgressEmit` map (`Map<string, number>`),
jobId → timestamp of the last emission. -/
def ThrottleMap := List (String × Int)

/-- `map.get(jobId)`. -/
def mapGet (m : ThrottleMap) (k : String) : Option Int :=
  List.lookup k m

/-- `map.set(jobId, now)`. -/
def mapSet (m : ThrottleMap) (k : String) (v : Int) : ThrottleMap :=
  (k, v) :: List.filter (fun p => p.1 ≠ k) m

/-- `map.delete(jobId)`. -/
def mapDelete (m : ThrottleMap) (k : String) : ThrottleMap :=
  List.filter (fun p => p.1 ≠ k) m

/-- One `io.to(channel).emit(eventName, payload)` call. -/
structure Emission where
  channel : String
  eventName : String
  payload : List (String × JVal)
  deriving Repr, DecidableEq

/-- `typeof returnvalue === "object" && returnvalue !== null ? returnvalue : {}`:
the fields spread into the `job:completed` payload.  (`typeof null` is
`"object"`, hence the explicit null check in the source; primitives spread
to nothing.) -/
def completedSpread : JVal → List (String × JVal)
  | .obj fields => fields.map fun p => (p.1, JVal.prim p.2)
  | .prim _ => []

/-- The `completed` handler: resolve the owner; when found, emit
`{jobId, queueName, ...payload}` to the room of the owner.  The throttle map is
not touched. -/
def onCompleted (m : ThrottleMap) (queueName jobId : String)
    (jobUserId : Option String) (returnvalue : JVal) :
    ThrottleMap × List Emission :=
  match getJobOwner jobUserId with
  | none => (m, [])
  | some u =>
    (m, [{ channel := u, eventName := "job:completed",
           payload := [("jobId", jstr jobId), ("queueName", jstr queueName)]
             ++ completedSpread returnvalue }])

/-- The `progress` handler: read `now`, look up the last emission
time of the job (default 0); drop the event when less than `PROGRESS_THROTTLE_MS` has
elapsed; otherwise record `now` in the throttle map FIRST, then resolve the
owner and, when found, emit `{jobId, queueName, progress}` to the room of
the owner. -/
def onProgress (m : ThrottleMap) (queueName jobId : String) (now : Int)
    (jobUserId : Option String) (data : JVal) :
    ThrottleMap × List Emission :=
  let last := (mapGet m jobId).getD 0
  if now - last < PROGRESS_THROTTLE_MS then (m, [])
  else
    let m2 := mapSet m jobId now
    match getJobOwner jobUserId with
    | none => (m2, [])
    | some u =>
      (m2, [{ channel := u, eventName := "job:progress",
              payload := [("jobId", jstr jobId), ("queueName", jstr queueName),
                          ("progress", data)] }])

/-- The `failed` handler: resolve the owner; when found, emit
`{jobId, queueName, failedReason}`; in all cases delete the throttle
entry of the job afterwards. -/
def onFailed (m : ThrottleMap) (queueName jobId : String)
    (jobUserId : Option String) (failedReason : String) :
    ThrottleMap × List Emission :=
  let ems :=
    match getJobOwner jobUserId with
    | none => []
    | some u =>
      [{ channel := u, eventName := "job:failed",
         payload := [("jobId", jstr jobId), ("queueName", jstr queueName),
                     ("failedReason", jstr failedReason)] }]
  (mapDelete m jobId, ems)

/-- Dispatch one broker event to its handler. -/
def handleEvent (m : ThrottleMap) : QEvent → ThrottleMap × List Emission
  | .progress q j t u d => onProgress m q j t u d
  | .completed q j _ u rv => onCompleted m q j u rv
  | .failed q j _ u r => onFailed m q j u r

/-- Process a sequence of broker events, accumulating the emissions. -/
def processTrace (m : ThrottleMap) : List QEvent → ThrottleMap × List Emission
  | [] => (m, [])
  | e :: rest =>
    let (m1, ems1) := handleEvent m e
    let (m2, ems2) := processTrace m1 rest
    (m2, ems1 ++ ems2)

end QueueEventsRelay

namespace VideoProcessor

/-! ## `src/server/src/jobs/video.processor.ts` — the transcode engine

`convertResolution` spawns ffmpeg with `-progress pipe:1`, parses
`out_time_ms=<digits>` markers from the stdout chunks, converts them to a
clamped percentage of the probed total duration and feeds each to
`onProgress`; when the process closes with exit code 0 it calls
`onProgress(100)` and resolves, otherwise it rejects with a
`ProcessingError`.  The embedding computes the full sequence of
`onProgress` arguments from the observed stdout chunks, the probed
duration, and the exit code. -/

/-- The first `out_time_ms=` occurrence in `line` that is followed by at
least one digit, returning the maximal digit run after it — the semantics
of `line.match(/out_time_ms=(\d+)/)` (the `line.includes` pre-check of the
source is subsumed: no occurrence means no match). -/
def matchOutTime : List String → Option Nat
  | [] => none
  | seg :: rest =>
    let digits := seg.takeWhile Char.isDigit
    if digits.isEmpty then matchOutTime rest else digits.toNat?

/-- Parse one line of the progress stream for an elapsed-time marker. -/
def parseOutTimeMs (line : String) : Option Nat :=
  matchOutTime (line.splitOn "out_time_ms=").tail

/-- `Math.round` of JavaScript: round half toward positive infinity. -/
def jsRound (x : ℚ) : Int := ⌊x + 1 / 2⌋

/-- `Math.min(Math.round((currentTimeMs / 1000000 / totalDuration) * 100), 100)`. -/
def progressOfMs (totalDuration : ℚ) (ms : Nat) : Int :=
  min (jsRound ((ms : ℚ) / 1000000 / totalDuration * 100)) 100

/-- The `onProgress` arguments produced by one stdout `data` chunk: split
on newlines; every line with a parsable `out_time_ms` marker yields a call,
provided the probed `totalDuration` is positive. -/
def progressCallsOfChunk (totalDuration : ℚ) (chunk : String) : List Int :=
  (chunk.splitOn "\x0a").filterMap fun line =>
    match parseOutTimeMs line with
    | some ms =>
      if totalDuration > 0 then some (progressOfMs totalDuration ms) else none
    | none => none

/-- The full sequence of `onProgress` arguments of one `convertResolution`
run: the streamed markers from every chunk in order, followed by the
unconditional `onProgress(100)` in the `close` listener when the exit code
is 0 (a nonzero exit rejects instead, with no final call). -/
def convertResolutionProgressCalls (totalDuration : ℚ) (chunks : List String)
    (exitCode : Int) : List Int :=
  let streamed := (chunks.map (progressCallsOfChunk totalDuration)).flatten
  if exitCode = 0 then streamed ++ [100] else streamed

end VideoProcessor

namespace VideoWorker

/-! ## `src/server/src/workers/video.worker.ts` + `storage.service.ts`

The worker processor downloads the source to a local temp path, assigns a
local output path, transcodes, uploads the result, best-effort deletes the
original remote artifact, and in a `finally` block removes whichever of
the two local temp files were assigned.  The local filesystem is a list of
existing temp-file paths; the outcome of each pipeline stage is supplied by a
`JobEnv` oracle so that failure can be injected at any stage (a stage
failure stands for any awaited call of that stage rejecting — e.g. the
network transfer, or the broker `updateProgress` round trip). -/

/-- Outcomes of the collaborator calls made by one job execution. -/
structure JobEnv where
  /-- `downloadFile(srcUrl)`: the created local input path, or a rejection
  (on rejection `downloadFile` has already removed its own partial file). -/
  downloadResult : Except String String
  /-- `convertResolution(localIn, localOut, target, onProgress)`. -/
  convertResult : Except String Unit
  /-- whether ffmpeg left a (partial) output file behind when
  `convertResult` is a rejection; on success the output file always exists. -/
  convertWroteOutput : Bool
  /-- `uploadFile(localOut, publicIdResized)`: the resized URL. -/
  uploadResult : Except String String
  /-- `job.data.originalPublicId` (deletion of the original is skipped when
  absent). -/
  originalPublicId : Option String
  /-- outcome of the remote-cleanup stage (`updateProgress` +
  `deleteFile(originalPublicId)`). -/
  deleteOriginalResult : Except String Unit
  /-- `job.data.target`. -/
  target : Int
  deriving Repr

/-- `fs.unlink(path)`: removes the file, or rejects with `ENOENT` when it
does not exist. -/
def unlink (fs : List String) (p : String) : Except String (List String) :=
  if fs.contains p then .ok (fs.filter fun q => q ≠ p) else .error "ENOENT"

/-- `cleanupTempFile(localPath)`: `unlink` wrapped in a `try`/`catch` that
logs and swallows every error — it never rejects, and never alters the
primary outcome of the job. -/
def cleanupTempFile (fs : List String) (p : String) : List String :=
  match unlink fs p with
  | .ok fs2 => fs2
  | .error _ => fs

/-- `return { resizedUrl, target }`. -/
structure JobResult where
  resizedUrl : String
  target : Int
  deriving Repr, DecidableEq

/-- The `try` body of the worker processor: outcome, filesystem after the
body, and which of `localIn` / `localOut` were assigned (the `finally`
block tests the variables, not the files; `localOut` is assigned right
before `convertResolution` runs). -/
def runBody (env : JobEnv) (localOutPath : String) (fs : List String) :
    Except String JobResult × List String × Option String × Option String :=
  match env.downloadResult with
  | .error e => (.error e, fs, none, none)
  | .ok localIn =>
    let fs1 := localIn :: fs
    match env.convertResult with
    | .error e =>
      (.error e,
       (if env.convertWroteOutput then localOutPath :: fs1 else fs1),
       some localIn, some localOutPath)
    | .ok _ =>
      let fs2 := localOutPath :: fs1
      match env.uploadResult with
      | .error e => (.error e, fs2, some localIn, some localOutPath)
      | .ok url =>
        match env.originalPublicId, env.deleteOriginalResult with
        | some _, .error e => (.error e, fs2, some localIn, some localOutPath)
        | _, _ => (.ok ⟨url, env.target⟩, fs2, some localIn, some localOutPath)

/-- The whole worker processor: run the body, then the `finally` block
(`if (localIn) await cleanupTempFile(localIn); if (localOut) await
cleanupTempFile(localOut);`).  Returns the outcome of the job and the final
filesystem. -/
def processVideoJob (env : JobEnv) (localOutPath : String) (fs : List String) :
    Except String JobResult × List String :=
  match runBody env localOutPath fs with
  | (res, fsBody, inPath, outPath) =>
    let fsA := match inPath with
      | some p => cleanupTempFile fsBody p
      | none => fsBody
    let fsB := match outPath with
      | some p => cleanupTempFile fsA p
      | none => fsA
    (res, fsB)

end VideoWorker

end VideoConverter

/-! # Theorems -/

open VideoConverter
open VideoConverter.VideoService
open VideoConverter.QueueEventsRelay
open VideoConverter.VideoProcessor
open VideoConverter.VideoWorker

/-! ## Shared helper lemmas -/

/-- An out-of-range resolution makes `validateResolution` throw. -/
lemma validateResolution_not_allowed {r : Int} (hr : r ∉ ALLOWED_RESOLUTIONS) :
    validateResolution r = .error "Unsupported resolution" := by
  simp [validateResolution, hr]

/-- An in-range resolution passes `validateResolution` unchanged. -/
lemma validateResolution_allowed {r : Int} (hr : r ∈ ALLOWED_RESOLUTIONS) :
    validateResolution r = .ok r := by
  simp [validateResolution, hr]

/-- `map.get` after `map.set` of the same key. -/
lemma mapGet_mapSet_self (m : ThrottleMap) (k : String) (v : Int) :
    mapGet (mapSet m k v) k = some v := by
  simp [mapGet, mapSet, List.lookup]

/-! ## C1 -/

/-- C1 counterexample: on the out-of-range resolution 1080, the status
lookup and the removal operation do NOT reject — they resolve with the
absence values `null` and `false` (only the submission operation throws a
validation error), so the claim as stated is false. -/
theorem C1_counterexample :
    (1080 : Int) ∉ ALLOWED_RESOLUTIONS ∧
    (getVideoJobStatusByRes emptyBroker 1080 "job-1").1 = .ok none ∧
    (removeVideoJobByRes emptyBroker 1080 "job-1").1 = .ok false :=
  ⟨by decide, rfl, rfl⟩

/-- C1 (amended): for every resolution outside {360, 480, 720},
`enqueueVideoTranscode` rejects with the validation error while the status
lookup resolves with `null` and the removal with `false`; in all three
cases the broker is untouched — the effect trace is empty and the broker
state unchanged. -/
theorem C1_invalid_resolution_rejected_or_absent (r : Int)
    (hr : r ∉ ALLOWED_RESOLUTIONS) (now : Int) (newJobId : String)
    (srcUrl userId jobId : String) (meta : List (String × JVal))
    (st : BrokerState) :
    enqueueVideoTranscode now newJobId ⟨srcUrl, userId, r, meta⟩ st
      = (.error "Unsupported resolution", st, []) ∧
    getVideoJobStatusByRes st r jobId = (.ok none, []) ∧
    removeVideoJobByRes st r jobId = (.ok false, st, []) := by
  refine ⟨?_, ?_, ?_⟩ <;>
    simp [enqueueVideoTranscode, getVideoJobStatusByRes, removeVideoJobByRes,
      validateResolution_not_allowed hr]

/-- C1 witness: the amended theorem applied at resolution 1080 on the empty
broker. -/
theorem C1_witness :
    enqueueVideoTranscode 1700000000000 "job-1"
        ⟨"https://cdn/video.mp4", "user-7", 1080, []⟩ emptyBroker
      = (.error "Unsupported resolution", emptyBroker, []) ∧
    getVideoJobStatusByRes emptyBroker 1080 "job-1" = (.ok none, []) ∧
    removeVideoJobByRes emptyBroker 1080 "job-1" = (.ok false, emptyBroker, []) :=
  C1_invalid_resolution_rejected_or_absent 1080 (by decide) 1700000000000
    "job-1" "https://cdn/video.mp4" "user-7" "job-1" [] emptyBroker

/-! ## C2 -/

/-- C2: on a run whose ffmpeg subprocess exits with code 0, the sequence of
`onProgress` invocations always ends with the value 100, whatever chunks
(including none) were observed on the progress stream. -/
theorem C2_final_progress_is_100 (totalDuration : ℚ) (chunks : List String) :
    (convertResolutionProgressCalls totalDuration chunks 0).getLast? = some 100 := by
  simp [convertResolutionProgressCalls]

/-! ## Relay helper lemmas -/

/-- `map.get` after `map.delete` of the same key. -/
lemma mapGet_mapDelete_self (m : ThrottleMap) (k : String) :
    mapGet (mapDelete m k) k = none := by
  induction m with
  | nil => rfl
  | cons p tl ih =>
    by_cases h : p.1 = k
    · simpa [mapDelete, mapGet, List.filter_cons, h] using ih
    · have hb : (k == p.1) = false := beq_false_of_ne (Ne.symm h)
      simpa [mapDelete, mapGet, List.filter_cons, h, List.lookup, hb] using ih

/-- The throttle map produced by the `progress` handler does not depend on
whether the owner lookup succeeds: it is unchanged on a throttled event and
updated to `now` otherwise. -/
lemma onProgress_map (m : ThrottleMap) (q j : String) (t : Int)
    (u : Option String) (d : JVal) :
    (onProgress m q j t u d).1 =
      if t - (mapGet m j).getD 0 < PROGRESS_THROTTLE_MS then m
      else mapSet m j t := by
  unfold onProgress
  by_cases hc : t - (mapGet m j).getD 0 < PROGRESS_THROTTLE_MS
  · simp [hc]
  · cases h : getJobOwner u <;> simp [hc, h]

/-! ## C3 -/

/-- C3 counterexample: a job emits one progress event and then completes;
contrary to the claim, its throttle entry survives the `completed` event —
only the `failed` handler deletes entries. -/
theorem C3_counterexample :
    mapGet (processTrace []
        [QEvent.progress "video_480p" "job-1" 1700000000000 (some "user-7") (jnum 10),
         QEvent.completed "video_480p" "job-1" 1700000000100 (some "user-7") (jstr "done")]).1
      "job-1" = some 1700000000000 := by
  decide

/-- C3 (amended): the throttle entry for a job is created on the first
progress event of the job (the map has no entry and the event passes the
throttle check), and it is deleted by the `failed` handler; the `completed`
handler leaves the map untouched, so after a job completes its entry
remains until a later `failed` event for that id or process shutdown. -/
theorem C3_throttle_entry_lifecycle :
    (∀ (m : ThrottleMap) (q j : String) (t : Int) (u : Option String) (d : JVal),
      mapGet m j = none → PROGRESS_THROTTLE_MS ≤ t →
      mapGet (onProgress m q j t u d).1 j = some t) ∧
    (∀ (m : ThrottleMap) (q j : String) (u : Option String) (reason : String),
      mapGet (onFailed m q j u reason).1 j = none) ∧
    (∀ (m : ThrottleMap) (q j : String) (u : Option String) (rv : JVal),
      (onCompleted m q j u rv).1 = m) := by
  refine ⟨?_, ?_, ?_⟩
  · intro m q j t u d hnone ht
    rw [onProgress_map, hnone]
    have hcond : ¬(t - (0 : Int) < PROGRESS_THROTTLE_MS) := by
      simp [PROGRESS_THROTTLE_MS] at ht ⊢
      omega
    simp only [Option.getD_none]
    rw [if_neg hcond]
    exact mapGet_mapSet_self m j t
  · intro m q j u reason
    cases h : getJobOwner u <;>
      simp [onFailed, h, mapGet_mapDelete_self]
  · intro m q j u rv
    cases h : getJobOwner u <;> simp [onCompleted, h]

/-- C3 witness: the amended theorem at a concrete map and concrete events. -/
theorem C3_witness :
    mapGet (onProgress [] "video_480p" "job-1" 1000 (some "user-7") (jnum 10)).1
        "job-1" = some 1000 ∧
    mapGet (onFailed [("job-1", 1000)] "video_480p" "job-1" (some "user-7") "boom").1
        "job-1" = none ∧
    (onCompleted [("job-1", 1000)] "video_480p" "job-1" (some "user-7") (jstr "ok")).1
      = [("job-1", 1000)] :=
  ⟨C3_throttle_entry_lifecycle.1 [] "video_480p" "job-1" 1000 (some "user-7")
      (jnum 10) rfl (by decide),
   C3_throttle_entry_lifecycle.2.1 [("job-1", 1000)] "video_480p" "job-1"
      (some "user-7") "boom",
   C3_throttle_entry_lifecycle.2.2 [("job-1", 1000)] "video_480p" "job-1"
      (some "user-7") (jstr "ok")⟩

/-! ## C4 -/

/-- C4: two progress events for the same job closer together than the
250 ms throttle interval yield at most one delivery (whatever the prior
throttle state and owner lookups); and two events more than the interval
apart, for a job with no prior throttle entry and a resolvable owner both
times, are both delivered. -/
theorem C4_progress_throttle_window (m : ThrottleMap) (q1 q2 j : String)
    (t1 t2 : Int) (u1 u2 : Option String) (d1 d2 : JVal) :
    (t2 - t1 < PROGRESS_THROTTLE_MS →
      ¬((onProgress m q1 j t1 u1 d1).2 ≠ [] ∧
        (onProgress (onProgress m q1 j t1 u1 d1).1 q2 j t2 u2 d2).2 ≠ [])) ∧
    (mapGet m j = none → PROGRESS_THROTTLE_MS ≤ t1 →
     PROGRESS_THROTTLE_MS < t2 - t1 →
     (∃ w1, u1 = some w1 ∧ w1 ≠ "") → (∃ w2, u2 = some w2 ∧ w2 ≠ "") →
      (onProgress m q1 j t1 u1 d1).2 ≠ [] ∧
      (onProgress (onProgress m q1 j t1 u1 d1).1 q2 j t2 u2 d2).2 ≠ []) := by
  constructor
  · rintro hlt ⟨h1, h2⟩
    by_cases hc : t1 - (mapGet m j).getD 0 < PROGRESS_THROTTLE_MS
    · exact h1 (by simp [onProgress, hc])
    · have hmap : (onProgress m q1 j t1 u1 d1).1 = mapSet m j t1 := by
        rw [onProgress_map]; simp [hc]
      refine h2 ?_
      rw [hmap]
      simp [onProgress, mapGet_mapSet_self, hlt]
  · rintro hnone h1pass hgap ⟨w1, hw1, hw1ne⟩ ⟨w2, hw2, hw2ne⟩
    have hc1 : ¬(t1 - (mapGet m j).getD 0 < PROGRESS_THROTTLE_MS) := by
      rw [hnone]
      simp [PROGRESS_THROTTLE_MS] at h1pass ⊢
      omega
    have howner1 : getJobOwner u1 = some w1 := by simp [getJobOwner, hw1, hw1ne]
    have howner2 : getJobOwner u2 = some w2 := by simp [getJobOwner, hw2, hw2ne]
    have hmap : (onProgress m q1 j t1 u1 d1).1 = mapSet m j t1 := by
      rw [onProgress_map]; simp [hc1]
    have hc2 : ¬(t2 - t1 < PROGRESS_THROTTLE_MS) := by
      simp [PROGRESS_THROTTLE_MS] at hgap ⊢
      omega
    constructor
    · simp [onProgress, hc1, howner1]
    · rw [hmap]
      simp [onProgress, mapGet_mapSet_self, hc2, howner2]

/-- C4 witness: at a fresh job, events at times 1000 and 1100 (within the
window) yield at most one delivery, and events at times 1000 and 1300
(beyond the window) are both delivered. -/
theorem C4_witness :
    (¬((onProgress [] "video_480p" "job-1" 1000 (some "user-7") (jnum 10)).2 ≠ [] ∧
       (onProgress (onProgress [] "video_480p" "job-1" 1000 (some "user-7") (jnum 10)).1
          "video_480p" "job-1" 1100 (some "user-7") (jnum 20)).2 ≠ [])) ∧
    ((onProgress [] "video_480p" "job-1" 1000 (some "user-7") (jnum 10)).2 ≠ [] ∧
     (onProgress (onProgress [] "video_480p" "job-1" 1000 (some "user-7") (jnum 10)).1
        "video_480p" "job-1" 1300 (some "user-7") (jnum 20)).2 ≠ []) :=
  ⟨(C4_progress_throttle_window [] "video_480p" "video_480p" "job-1" 1000 1100
      (some "user-7") (some "user-7") (jnum 10) (jnum 20)).1 (by decide),
   (C4_progress_throttle_window [] "video_480p" "video_480p" "job-1" 1000 1300
      (some "user-7") (some "user-7") (jnum 10) (jnum 20)).2 rfl (by decide)
      (by decide) ⟨"user-7", rfl, by decide⟩ ⟨"user-7", rfl, by decide⟩⟩

/-! ## C8 -/

/-- C8: the progress handler records the throttle timestamp before
resolving the owner, so an event for a job that has vanished from its
queue delivers nothing yet still consumes the throttle window, and a
deliverable event for the same job arriving within 250 ms is dropped even
though nothing was delivered in between. -/
theorem C8_vanished_job_consumes_throttle_window (m : ThrottleMap)
    (q1 q2 j : String) (t1 t2 : Int) (d1 d2 : JVal) (u : String)
    (hpass : ¬(t1 - (mapGet m j).getD 0 < PROGRESS_THROTTLE_MS))
    (hlt : t2 - t1 < PROGRESS_THROTTLE_MS) (_hu : u ≠ "") :
    (onProgress m q1 j t1 none d1).2 = [] ∧
    mapGet (onProgress m q1 j t1 none d1).1 j = some t1 ∧
    onProgress (onProgress m q1 j t1 none d1).1 q2 j t2 (some u) d2
      = ((onProgress m q1 j t1 none d1).1, []) := by
  have hmap : (onProgress m q1 j t1 none d1).1 = mapSet m j t1 := by
    rw [onProgress_map]; simp [hpass]
  refine ⟨?_, ?_, ?_⟩
  · simp [onProgress, hpass, getJobOwner]
  · rw [hmap, mapGet_mapSet_self]
  · rw [hmap]
    simp [onProgress, mapGet_mapSet_self, hlt]

/-- C8 witness: the vanished-then-reappearing job at times 1000 and 1100
on a fresh map. -/
theorem C8_witness :
    (onProgress [] "video_480p" "job-1" 1000 none (jnum 10)).2 = [] ∧
    mapGet (onProgress [] "video_480p" "job-1" 1000 none (jnum 10)).1 "job-1"
      = some 1000 ∧
    onProgress (onProgress [] "video_480p" "job-1" 1000 none (jnum 10)).1
        "video_480p" "job-1" 1100 (some "user-7") (jnum 20)
      = ((onProgress [] "video_480p" "job-1" 1000 none (jnum 10)).1, []) :=
  C8_vanished_job_consumes_throttle_window [] "video_480p" "video_480p" "job-1"
    1000 1100 (jnum 10) (jnum 20) "user-7" (by decide) (by decide) (by decide)

/-! ## C7 -/

/-- A successfully verified token never resolves to an empty user id. -/
lemma verifyJwt_sub_nonempty {nodeEnv token sub : String}
    (h : verifyJwt nodeEnv token = .ok sub) : sub ≠ "" := by
  unfold verifyJwt at h
  split at h
  · cases h
    decide
  · split at h
    · rename_i hstart
      cases h
      intro hemp
      subst hemp
      exact absurd hstart (by decide)
    · cases h

/-- C7: an authenticated connection joins exactly the one private channel
named by its resolved identity, and every emission any relay handler
produces is addressed to the resolved owner of the job of the event — never to
any other channel. -/
theorem C7_owner_only_delivery (nodeEnv token : String) (m : ThrottleMap)
    (e : QEvent) :
    (∀ sub, verifyJwt nodeEnv token = .ok sub → connectionChannels sub = [sub]) ∧
    (∀ em ∈ (handleEvent m e).2, some em.channel = e.owner) := by
  constructor
  · intro sub hsub
    simp [connectionChannels, verifyJwt_sub_nonempty hsub]
  · intro em hem
    cases e with
    | progress q j t u d =>
      revert hem
      by_cases hc : t - (mapGet m j).getD 0 < PROGRESS_THROTTLE_MS
      · simp [handleEvent, onProgress, hc]
      · cases h : getJobOwner u with
        | none => simp [handleEvent, onProgress, hc, h]
        | some w =>
          simp [handleEvent, onProgress, hc, h, QEvent.owner, QEvent.jobUserId]
          rintro rfl
          rfl
    | completed q j t u rv =>
      revert hem
      cases h : getJobOwner u with
      | none => simp [handleEvent, onCompleted, h]
      | some w =>
        simp [handleEvent, onCompleted, h, QEvent.owner, QEvent.jobUserId]
        rintro rfl
        rfl
    | failed q j t u reason =>
      revert hem
      cases h : getJobOwner u with
      | none => simp [handleEvent, onFailed, h]
      | some w =>
        simp [handleEvent, onFailed, h, QEvent.owner, QEvent.jobUserId]
        rintro rfl
        rfl

/-- C7 witness: a concrete verified connection and a concrete delivered
progress event. -/
theorem C7_witness :
    connectionChannels "demo-user" = ["demo-user"] ∧
    ∀ em ∈ (handleEvent []
        (QEvent.progress "video_480p" "job-1" 1000 (some "user-7") (jnum 10))).2,
      some em.channel =
        (QEvent.progress "video_480p" "job-1" 1000 (some "user-7") (jnum 10)).owner :=
  ⟨(C7_owner_only_delivery "development" "dev-token" []
      (QEvent.progress "video_480p" "job-1" 1000 (some "user-7") (jnum 10))).1
      "demo-user" rfl,
   (C7_owner_only_delivery "development" "dev-token" []
      (QEvent.progress "video_480p" "job-1" 1000 (some "user-7") (jnum 10))).2⟩

/-! ## C10 -/

/-- C10: when the owner of a completed job resolves, a non-object (or
null) return value produces a payload holding exactly `jobId` and
`queueName`, while an object return value has its fields spread into the
payload after those two fields. -/
theorem C10_completed_payload_shape (m : ThrottleMap) (q j : String)
    (jobUserId : Option String) (u : String)
    (howner : getJobOwner jobUserId = some u) :
    (∀ p : JPrim,
      (onCompleted m q j jobUserId (.prim p)).2 =
        [{ channel := u, eventName := "job:completed",
           payload := [("jobId", jstr j), ("queueName", jstr q)] }]) ∧
    (∀ fields,
      (onCompleted m q j jobUserId (.obj fields)).2 =
        [{ channel := u, eventName := "job:completed",
           payload := [("jobId", jstr j), ("queueName", jstr q)]
             ++ fields.map fun pr => (pr.1, JVal.prim pr.2) }]) := by
  constructor <;> intro x <;> simp [onCompleted, howner, completedSpread]

/-- C10 witness: a string return value yields the bare payload; an object
return value is spread after the two core fields. -/
theorem C10_witness :
    (onCompleted [] "video_480p" "job-1" (some "user-7") (jstr "done")).2 =
      [{ channel := "user-7", eventName := "job:completed",
         payload := [("jobId", jstr "job-1"), ("queueName", jstr "video_480p")] }] ∧
    (onCompleted [] "video_480p" "job-1" (some "user-7")
        (JVal.obj [("resizedUrl", .str "https://cdn/out.mp4"), ("target", .num 480)])).2 =
      [{ channel := "user-7", eventName := "job:completed",
         payload := [("jobId", jstr "job-1"), ("queueName", jstr "video_480p"),
                     ("resizedUrl", jstr "https://cdn/out.mp4"),
                     ("target", jnum 480)] }] :=
  ⟨(C10_completed_payload_shape [] "video_480p" "job-1" (some "user-7") "user-7"
      rfl).1 (.str "done"),
   (C10_completed_payload_shape [] "video_480p" "job-1" (some "user-7") "user-7"
      rfl).2 [("resizedUrl", .str "https://cdn/out.mp4"), ("target", .num 480)]⟩

/-! ## C6 -/

/-- C6: when a job id lives in exactly one queue, the queue of resolution `r`, the
brute-force lookup returns exactly what the direct lookup for `r` returns;
when the id lives in no queue, the brute-force lookup resolves with the
absence value `null`, not an exception. -/
theorem C6_anyqueue_matches_byres (st : BrokerState) (jobId : String) (r : Int) :
    (r ∈ ALLOWED_RESOLUTIONS → (getJob st r jobId).isSome →
      (∀ s ∈ ALLOWED_RESOLUTIONS, s ≠ r → getJob st s jobId = none) →
      (getVideoJobStatusAnyQueue st jobId).1 = (getVideoJobStatusByRes st r jobId).1) ∧
    ((∀ s ∈ ALLOWED_RESOLUTIONS, getJob st s jobId = none) →
      (getVideoJobStatusAnyQueue st jobId).1 = .ok none) := by
  constructor
  · intro hr hsome hmiss
    obtain ⟨job, hjob⟩ := Option.isSome_iff_exists.mp hsome
    have hby : (getVideoJobStatusByRes st r jobId).1 =
        .ok (getVideoJobStatusFromQueue st r jobId (some r)).1 := by
      rw [getVideoJobStatusByRes, validateResolution_allowed hr]
    simp only [ALLOWED_RESOLUTIONS, List.mem_cons, List.mem_singleton,
      List.not_mem_nil, or_false] at hr
    rcases hr with rfl | rfl | rfl
    · simp [getVideoJobStatusAnyQueue, anyQueueLoop, hby,
        getVideoJobStatusFromQueue, hjob]
    · have h360 := hmiss 360 (by decide) (by decide)
      simp [getVideoJobStatusAnyQueue, anyQueueLoop, hby,
        getVideoJobStatusFromQueue, hjob, h360]
    · have h360 := hmiss 360 (by decide) (by decide)
      have h480 := hmiss 480 (by decide) (by decide)
      simp [getVideoJobStatusAnyQueue, anyQueueLoop, hby,
        getVideoJobStatusFromQueue, hjob, h360, h480]
  · intro hmiss
    have h360 := hmiss 360 (by decide)
    have h480 := hmiss 480 (by decide)
    have h720 := hmiss 720 (by decide)
    simp [getVideoJobStatusAnyQueue, anyQueueLoop, getVideoJobStatusFromQueue,
      h360, h480, h720]

/-- C6 witness: a broker holding the job only in the 480p queue, and the
empty broker. -/
theorem C6_witness :
    (getVideoJobStatusAnyQueue
        (enqueueVideoTranscode 1700000000000 "job-1"
          ⟨"https://cdn/video.mp4", "user-7", 480, []⟩ emptyBroker).2.1 "job-1").1 =
      (getVideoJobStatusByRes
        (enqueueVideoTranscode 1700000000000 "job-1"
          ⟨"https://cdn/video.mp4", "user-7", 480, []⟩ emptyBroker).2.1 480 "job-1").1 ∧
    (getVideoJobStatusAnyQueue emptyBroker "job-9").1 = .ok none :=
  ⟨(C6_anyqueue_matches_byres
      (enqueueVideoTranscode 1700000000000 "job-1"
        ⟨"https://cdn/video.mp4", "user-7", 480, []⟩ emptyBroker).2.1 "job-1" 480).1
      (by decide) (by decide) (by decide),
   (C6_anyqueue_matches_byres emptyBroker "job-9" 480).2 (by decide)⟩

/-! ## C9 -/

/-- Association-list lookup over append: a hit in the first list wins. -/
lemma lookup_append_some {α β : Type} [BEq α] {k : α} {x : List (α × β)}
    {v : β} (y : List (α × β)) (h : List.lookup k x = some v) :
    List.lookup k (x ++ y) = some v := by
  induction x with
  | nil => simp at h
  | cons p tl ih =>
    obtain ⟨k', v'⟩ := p
    by_cases hb : (k == k') = true
    · simp [List.lookup, hb] at h ⊢
      exact h
    · simp only [Bool.not_eq_true] at hb
      simp [List.lookup, hb] at h ⊢
      exact ih h

/-- Association-list lookup over append: a miss in the first list defers
to the second. -/
lemma lookup_append_none {α β : Type} [BEq α] {k : α} {x : List (α × β)}
    (y : List (α × β)) (h : List.lookup k x = none) :
    List.lookup k (x ++ y) = List.lookup k y := by
  induction x with
  | nil => simp
  | cons p tl ih =>
    obtain ⟨k', v'⟩ := p
    by_cases hb : (k == k') = true
    · simp [List.lookup, hb] at h
    · simp only [Bool.not_eq_true] at hb
      simp [List.lookup, hb] at h ⊢
      exact ih h

/-- Object lookup on concatenated field lists: a binding in the second
(later, spread-in) list shadows one in the first. -/
lemma objGet_append_some {a b : List (String × JVal)} {k : String} {v : JVal}
    (h : objGet b k = some v) : objGet (a ++ b) k = some v := by
  unfold objGet at h ⊢
  rw [List.reverse_append]
  exact lookup_append_some _ h

/-- Object lookup on concatenated field lists: a key unbound in the
second (spread-in) list falls back to the first. -/
lemma objGet_append_none {a b : List (String × JVal)} {k : String}
    (h : objGet b k = none) : objGet (a ++ b) k = objGet a k := by
  unfold objGet at h ⊢
  rw [List.reverse_append]
  exact lookup_append_none _ h

/-- C9: the optional `jobMeta` bag is spread into the job payload after
the core fields, so any binding it carries — including one for `srcUrl`,
`target`, `userId` or `requestedAt` — overwrites the core value in the
stored job data; for every key it does not bind, the stored payload keeps
the server-assigned core value. -/
theorem C9_jobMeta_overwrites_core (now : Int) (jid srcUrl userId : String)
    (r : Int) (meta : List (String × JVal)) (st : BrokerState)
    (hr : r ∈ ALLOWED_RESOLUTIONS) :
    ∃ job,
      getJob (enqueueVideoTranscode now jid ⟨srcUrl, userId, r, meta⟩ st).2.1
        r jid = some job ∧
      (∀ k v, objGet meta k = some v → objGet job.data k = some v) ∧
      (objGet meta "srcUrl" = none →
        objGet job.data "srcUrl" = some (jstr srcUrl)) ∧
      (objGet meta "target" = none →
        objGet job.data "target" = some (jnum r)) ∧
      (objGet meta "userId" = none →
        objGet job.data "userId" = some (jstr userId)) ∧
      (objGet meta "requestedAt" = none →
        objGet job.data "requestedAt" = some (jnum now)) := by
  have hun : (enqueueVideoTranscode now jid ⟨srcUrl, userId, r, meta⟩ st).2.1 =
      ⟨(r, ⟨jid, buildJobName r,
        [("srcUrl", jstr srcUrl), ("target", jnum r), ("userId", jstr userId),
         ("requestedAt", jnum now)] ++ meta,
        "waiting", jnum 0, jnull, ""⟩) :: st.jobs⟩ := by
    rw [enqueueVideoTranscode, validateResolution_allowed hr]
  refine ⟨⟨jid, buildJobName r,
    [("srcUrl", jstr srcUrl), ("target", jnum r), ("userId", jstr userId),
     ("requestedAt", jnum now)] ++ meta,
    "waiting", jnum 0, jnull, ""⟩, ?_, ?_, ?_, ?_, ?_, ?_⟩
  · rw [hun]
    simp [getJob]
  · intro k v hk
    exact objGet_append_some hk
  · intro hnone
    rw [objGet_append_none hnone]
    rfl
  · intro hnone
    rw [objGet_append_none hnone]
    rfl
  · intro hnone
    rw [objGet_append_none hnone]
    rfl
  · intro hnone
    rw [objGet_append_none hnone]
    rfl

/-- C9 witness: a `jobMeta` bag that overwrites `userId` and leaves the
other core fields alone. -/
theorem C9_witness :
    ∃ job,
      getJob (enqueueVideoTranscode 1700000000000 "job-1"
          ⟨"https://cdn/video.mp4", "user-7", 480,
           [("userId", jstr "intruder"), ("note", jstr "hello")]⟩
          emptyBroker).2.1 480 "job-1" = some job ∧
      (∀ k v,
        objGet [("userId", jstr "intruder"), ("note", jstr "hello")] k = some v →
        objGet job.data k = some v) ∧
      (objGet [("userId", jstr "intruder"), ("note", jstr "hello")] "srcUrl" = none →
        objGet job.data "srcUrl" = some (jstr "https://cdn/video.mp4")) ∧
      (objGet [("userId", jstr "intruder"), ("note", jstr "hello")] "target" = none →
        objGet job.data "target" = some (jnum 480)) ∧
      (objGet [("userId", jstr "intruder"), ("note", jstr "hello")] "userId" = none →
        objGet job.data "userId" = some (jstr "user-7")) ∧
      (objGet [("userId", jstr "intruder"), ("note", jstr "hello")] "requestedAt" = none →
        objGet job.data "requestedAt" = some (jnum 1700000000000)) :=
  C9_jobMeta_overwrites_core 1700000000000 "job-1" "https://cdn/video.mp4"
    "user-7" 480 [("userId", jstr "intruder"), ("note", jstr "hello")]
    emptyBroker (by decide)

/-! ## C5 -/

/-- Filtering out a path that is not present changes nothing. -/
lemma filter_ne_of_not_mem {fs : List String} {p : String} (h : p ∉ fs) :
    List.filter (fun q => !decide (q = p)) fs = fs := by
  apply List.filter_eq_self.mpr
  intro a ha
  have hne : ¬(a = p) := fun he => h (he ▸ ha)
  simp [hne]

/-- Removing an absent path is the swallowed `ENOENT` case: a no-op. -/
lemma cleanupTempFile_not_mem {fs : List String} {p : String} (h : p ∉ fs) :
    cleanupTempFile fs p = fs := by
  simp [cleanupTempFile, unlink, h]

/-- Removing the freshly created head file leaves the rest intact. -/
lemma cleanupTempFile_cons {fs : List String} {p : String} (h : p ∉ fs) :
    cleanupTempFile (p :: fs) p = fs := by
  simp [cleanupTempFile, unlink, List.filter_cons, filter_ne_of_not_mem h]

/-- Removing the second of two freshly created files keeps the first. -/
lemma cleanupTempFile_cons_cons {a b : String} {fs : List String}
    (hab : a ≠ b) (hb : b ∉ fs) : cleanupTempFile (a :: b :: fs) b = a :: fs := by
  simp [cleanupTempFile, unlink, List.filter_cons, hab,
    filter_ne_of_not_mem hb]

/-- C5: for every stage-outcome environment — success, or failure injected
at the download, transcode, upload or remote-cleanup stage — the worker
`finally` block removes exactly the local temp files the run created (the
filesystem ends as it began), and the swallowed deletion errors never
change the primary outcome of the job. -/
theorem C5_temp_files_always_cleaned (env : JobEnv) (outPath : String)
    (fs : List String) (hout : outPath ∉ fs)
    (hin : ∀ p, env.downloadResult = .ok p → p ∉ fs ∧ p ≠ outPath) :
    (processVideoJob env outPath fs).2 = fs ∧
    (processVideoJob env outPath fs).1 = (runBody env outPath fs).1 := by
  obtain ⟨dl, cv, cw, up, orig, delo, tgt⟩ := env
  cases dl with
  | error e => exact ⟨rfl, rfl⟩
  | ok pin =>
    obtain ⟨hpin, hne⟩ := hin pin rfl
    have hclean2 : cleanupTempFile (cleanupTempFile (outPath :: pin :: fs) pin)
        outPath = fs := by
      rw [cleanupTempFile_cons_cons (Ne.symm hne) hpin, cleanupTempFile_cons hout]
    have hclean1 : cleanupTempFile (cleanupTempFile (pin :: fs) pin) outPath = fs := by
      rw [cleanupTempFile_cons hpin, cleanupTempFile_not_mem hout]
    cases cv with
    | error e =>
      cases cw <;>
        simp [processVideoJob, runBody, hclean1, hclean2]
    | ok u =>
      cases up with
      | error e => simp [processVideoJob, runBody, hclean2]
      | ok url =>
        cases orig with
        | none => simp [processVideoJob, runBody, hclean2]
        | some oid =>
          cases delo with
          | error e => simp [processVideoJob, runBody, hclean2]
          | ok u2 => simp [processVideoJob, runBody, hclean2]

/-- C5 witness: a run whose transcode stage fails after leaving a partial
output file still ends with the original filesystem, and the failure is
reported unchanged. -/
theorem C5_witness :
    (processVideoJob
        ⟨.ok "/tmp/in.mp4", .error "ffmpeg exited 1", true,
         .ok "https://cdn/out.mp4", some "orig-id", .ok (), 480⟩
        "/tmp/out.mp4" ["keep.txt"]).2 = ["keep.txt"] ∧
    (processVideoJob
        ⟨.ok "/tmp/in.mp4", .error "ffmpeg exited 1", true,
         .ok "https://cdn/out.mp4", some "orig-id", .ok (), 480⟩
        "/tmp/out.mp4" ["keep.txt"]).1 =
      (runBody
        ⟨.ok "/tmp/in.mp4", .error "ffmpeg exited 1", true,
         .ok "https://cdn/out.mp4", some "orig-id", .ok (), 480⟩
        "/tmp/out.mp4" ["keep.txt"]).1 :=
  C5_temp_files_always_cleaned
    ⟨.ok "/tmp/in.mp4", .error "ffmpeg exited 1", true,
     .ok "https://cdn/out.mp4", some "orig-id", .ok (), 480⟩
    "/tmp/out.mp4" ["keep.txt"] (by decide)
    (by
      intro p hp
      cases hp
      exact ⟨by decide, by decide⟩)
